import Mathlib

/-!
Verification of the natural-language specification of the 2vyper/nagini/py2viper
verifier family against a shallow embedding of its Python sources.

Each namespace below embeds one source module:
* `ViperAstLib`  — nagini_translation/lib/viper_ast.py (big-integer marshalling)
* `Lark`         — twovyper/parsing/lark.py (decimal literal parsing)
* `Mangled`      — twovyper/translation/mangled.py (IR name mangling)
* `VyperTypes`   — twovyper/ast/types.py (type compatibility)
* `Annotator`    — twovyper/analysis/type_annotator.py (candidate combination)
* `Arith`        — twovyper/translation/arithmetic.py (overflow/underflow guards)
* `Checker`      — twovyper/analysis/structure_checker.py (context-tag checks)
* `ProgNodes`    — py2viper_translation/lib/program_nodes.py (fresh names)
-/

namespace ViperAstLib

/-- `LONG_SIZE` from viper_ast.py. -/
def LONG_SIZE : Nat := 2147483647

/-- The while loop of `ViperAST.to_big_int`:
`while rest > 0: current = rest % cutoff; result = result * cutoff + current; rest = rest // cutoff`.
Both `rest` and the accumulator are nonnegative here (the sign was split off before the loop). -/
def to_big_int_loop (rest result : Nat) : Nat :=
  if 0 < rest then
    to_big_int_loop (rest / LONG_SIZE) (result * LONG_SIZE + rest % LONG_SIZE)
  else
    result
termination_by rest
decreasing_by exact Nat.div_lt_self (by omega) (by decide)

/-- `ViperAST.to_big_int(num)`: splits `|num|` into base-`LONG_SIZE` digits with the loop above
and negates the result at the end if `num` was negative.  The resulting mathematical integer is
the value of the BigInt handed to the foreign runtime (reading it back is the identity). -/
def to_big_int (num : Int) : Int :=
  let negative := num < 0
  let result := to_big_int_loop num.natAbs 0
  if negative then -(result : Int) else (result : Int)

end ViperAstLib

namespace Lark

/-- `numd` in `LarkTransformer.float` (lark.py): the number of decimal digits. -/
def numd : Nat := 10

/-- Python `int(s)` for a string of decimal digits, as used by `float` on the two dot-separated
digit groups of a decimal literal. -/
def str_to_int (s : String) : Nat :=
  s.data.foldl (fun a c => a * 10 + (c.toNat - 48)) 0

/-- Python `s.ljust(w, '0')`: pad `s` on the right with `'0'` up to width `w`. -/
def ljust_zero (s : String) (w : Nat) : String :=
  s ++ String.mk (List.replicate (w - s.length) '0')

/-- Python `str.split(sep)` for a one-character separator, on the character list: splitting
never drops empty groups, so the group count is the separator count plus one. -/
def split_chars (sep : Char) : List Char → List (List Char)
  | [] => [[]]
  | c :: cs =>
    match split_chars sep cs with
    | [] => [[]]
    | g :: gs => if c = sep then [] :: g :: gs else (c :: g) :: gs

/-- Python `s.split(sep)` for a one-character separator. -/
def py_split (s : String) (sep : Char) : List String :=
  (split_chars sep s.data).map List.asString

/-- `LarkTransformer.float` (lark.py): split the literal on `'.'` (the destructuring
`first, second = children[0].split('.')` demands exactly two groups); reject more than `numd`
fractional digits with an `invalid.decimal.literal` error; otherwise scale to the fixed-point
value `int(first) * 10 ^ numd + int(second.ljust(numd, '0'))`. -/
def float (s : String) : Except String Nat :=
  match py_split s '.' with
  | [first, second] =>
      if second.length > numd then
        Except.error "invalid.decimal.literal"
      else
        Except.ok (str_to_int first * 10 ^ numd + str_to_int (ljust_zero second numd))
  | _ => Except.error "invalid.float.shape"

end Lark

namespace Mangled

/-- `mangled.axiom_name(viper_name)`: the IR name of a generic axiom for a base name,
literally `f'\x7bviper_name\x7d$ax'`. -/
def ax_name (viper_name : String) : String :=
  viper_name ++ "$ax"

/-- `mangled.ghost_function_name`. -/
def ghost_function_name (vyper_name : String) : String :=
  "g$" ++ vyper_name

end Mangled

namespace VyperTypes

/-- The Vyper type algebra of twovyper/ast/types.py, restricted to the constructors the
claims exercise.  `VyperType.__eq__` in the source compares the `id` strings; on every type
the system constructs (primitive names drawn from the fixed vocabulary in `names`, which
contains no bracket characters) that is exactly structural equality of this inductive. -/
inductive VyperType where
  | primitive (name : String)
  | array (element_type : VyperType) (size : Nat) (is_strict : Bool)
  | contract (name : String)
deriving DecidableEq, Repr

def VYPER_BOOL : VyperType := .primitive "bool"

def VYPER_INT128 : VyperType := .primitive "int128"

def VYPER_UINT256 : VyperType := .primitive "uint256"

def VYPER_DECIMAL : VyperType := .primitive "decimal"

def VYPER_ADDRESS : VyperType := .primitive "address"

def VYPER_BYTE : VyperType := .primitive "byte"

/-- `types.is_integer`. -/
def is_integer (t : VyperType) : Bool :=
  t == VYPER_INT128 || t == VYPER_UINT256

/-- `types.is_unsigned`. -/
def is_unsigned (t : VyperType) : Bool :=
  t == VYPER_UINT256

/-- `types.is_numeric`. -/
def is_numeric (t : VyperType) : Bool :=
  t == VYPER_INT128 || t == VYPER_UINT256 || t == VYPER_DECIMAL

/-- The test `isinstance(t, ArrayType) and not t.is_strict` used by `matches`. -/
def non_strict_array (t : VyperType) : Bool :=
  match t with
  | .array _ _ false => true
  | _ => false

/-- `t.element_type` (meaningful on arrays; the catch-all default is never reached behind an
`isinstance(_, ArrayType)` test). -/
def element_type : VyperType → VyperType
  | .array e _ _ => e
  | t => t

/-- `t.size` (meaningful on arrays). -/
def arr_size : VyperType → Nat
  | .array _ s _ => s
  | _ => 0

/-- The test `isinstance(t, ContractType)`. -/
def is_contract (t : VyperType) : Bool :=
  match t with
  | .contract _ => true
  | _ => false

/-- `types.matches(t, m)` (the source name `matches` is a reserved word in Lean): non-strict
arrays with equal element types compare their sizes; all integer types are mutually compatible;
a contract type matches the address type; otherwise the types must be equal. -/
def matches_ty (t m : VyperType) : Bool :=
  if non_strict_array t && non_strict_array m && (element_type t == element_type m) then
    arr_size t ≤ arr_size m
  else if is_integer t && is_integer m then
    true
  else if is_contract t && m == VYPER_ADDRESS then
    true
  else
    t == m

end VyperTypes

namespace Annotator

open VyperTypes

/-- The local predicate `is_array(t)` of `TypeAnnotator.combine`:
`isinstance(t, ArrayType) and not t.is_strict`. -/
def is_array (t : VyperType) : Bool :=
  non_strict_array t

/-- Python `max(arrays, key=lambda t: t.size)` on a list of candidate types: `none` on the
empty list (where CPython raises `ValueError`), otherwise the first element of maximal size
(Python `max` keeps the earliest maximum). -/
def py_max_by_size : List VyperType → Option VyperType
  | [] => none
  | x :: xs => some (xs.foldl (fun acc t => if arr_size t > arr_size acc then t else acc) x)

/-- The comprehension `[t for t in lst if is_array(t) and t.element_type == matching.element_type]`
inside `longest_array`. -/
def matching_arrays (matching : VyperType) (lst : List VyperType) : List VyperType :=
  lst.filter (fun t => is_array t && (element_type t == element_type matching))

/-- `longest_array(matching, lst)` of `TypeAnnotator.combine`: the largest-capacity non-strict
array of `lst` whose element type matches; the `ValueError` of `max` on an empty candidate list
becomes the `InvalidProgramException` with reason code `wrong.type`. -/
def longest_array (matching : VyperType) (lst : List VyperType) : Except String VyperType :=
  match py_max_by_size (matching_arrays matching lst) with
  | some m => Except.ok m
  | none => Except.error "wrong.type"

/-- One step of the generator `intersect(l1, l2)` for a single candidate `e` of `l1`:
a non-strict array contributes `longest_array(e, l2)`; any other candidate scans `l2` and
yields `e` when `matches(e, t)` and otherwise `t` when `matches(t, e)`. -/
def intersect_one (e : VyperType) (l2 : List VyperType) : Except String (List VyperType) :=
  if is_array e then
    (longest_array e l2).map (fun t => [t])
  else
    Except.ok (l2.foldr
      (fun t acc =>
        if matches_ty e t then e :: acc
        else if matches_ty t e then t :: acc
        else acc) [])

/-- The generator `intersect(l1, l2)` of `TypeAnnotator.combine`, run eagerly (the caller
consumes it with `list(...)`); an exception raised while producing elements aborts the whole
combination. -/
def intersect : List VyperType → List VyperType → Except String (List VyperType)
  | [], _ => Except.ok []
  | e :: rest, l2 => do
      let h ← intersect_one e l2
      let t ← intersect rest l2
      Except.ok (h ++ t)

/-- `TypeAnnotator.combine` restricted to its type-list computation with the default
`allowed` filter (`lambda t: True`): intersect the two candidate lists and fail with
`wrong.type` when the intersection is empty. -/
def combine_types (l1 l2 : List VyperType) : Except String (List VyperType) :=
  match intersect l1 l2 with
  | Except.error e => Except.error e
  | Except.ok l => if l.isEmpty then Except.error "wrong.type" else Except.ok l

end Annotator

namespace Arith

open VyperTypes

/-- `mangled.OVERFLOW`, the name of the sticky overflow variable produced by
`helpers.overflow_var`. -/
def OVERFLOW : String := "$overflow"

/-- Modelled from the spec: `names.CONFIG_NO_OVERFLOWS` lives in twovyper/ast/names.py, which
is not part of the source tree; the spec calls the configuration option `no_overflows`. -/
def CONFIG_NO_OVERFLOWS : String := "no_overflows"

/-- The fragment of the Viper expression AST built by the arithmetic translator.  `div`, `mod`
and `pow` stand for the truncating `helpers.div` / `helpers.mod` / `helpers.pow` applications
of the `$Math` support domain. -/
inductive Expr where
  | IntLit (n : Int)
  | Var (name : String)
  | TrueLit
  | Minus (e : Expr)
  | Add (l r : Expr)
  | Sub (l r : Expr)
  | Mul (l r : Expr)
  | Div (l r : Expr)
  | Mod (l r : Expr)
  | Pow (l r : Expr)
  | LtCmp (l r : Expr)
  | GtCmp (l r : Expr)
  | EqCmp (l r : Expr)
  | Or (l r : Expr)
deriving DecidableEq, Repr

/-- The fragment of the Viper statement AST built by the arithmetic translator. -/
inductive Stmt where
  | LocalVarAssign (lhs : String) (rhs : Expr)
  | Goto (label : String)
  | If (cond : Expr) (thn els : List Stmt)

/-- Modelled from the spec: `translation/context.py` is not part of the source tree.  The
context carries the revert label targeted by `fail_if` and the program's configuration options
(`ctx.program.config.has_option`). -/
structure Context where
  revert_label : String
  config_options : List String
deriving DecidableEq, Repr

/-- `ctx.program.config.has_option(name)`. -/
def Context.has_option (ctx : Context) (name : String) : Bool :=
  ctx.config_options.contains name

/-- `CommonTranslator.fail_if(cond, stmts, res, ctx)`: append to `res` a conditional that runs
`stmts` and jumps to the revert label when `cond` holds.  (The copy of `fail_if` in
translation/abstract.py builds the same `If(cond, [*stmts, Goto(ctx.revert_label)], [])`
statement; arithmetic.py's call convention appends it to the accumulator `res`.) -/
def fail_if (cond : Expr) (stmts : List Stmt) (res : List Stmt) (ctx : Context) : List Stmt :=
  res ++ [Stmt.If cond (stmts ++ [Stmt.Goto ctx.revert_label]) []]

/-- Modelled from the spec: `BoundedType` and `types.is_bounded` are referenced by
arithmetic.py but absent from the source tree.  Per the spec the bounded types are the
fixed-size numeric types, checked against literal `[lower, upper]` bounds. -/
def is_bounded (t : VyperType) : Bool :=
  is_numeric t

/-- Modelled from the spec: `type.lower` for the bounded numeric types (two's-complement
`int128`, unsigned `uint256`, and the scaled decimal). -/
def type_lower (t : VyperType) : Int :=
  if t == VYPER_UINT256 then 0 else -(2 ^ 127)

/-- Modelled from the spec: `type.upper` for the bounded numeric types. -/
def type_upper (t : VyperType) : Int :=
  if t == VYPER_UINT256 then 2 ^ 256 - 1 else 2 ^ 127 - 1

/-- `ArithmeticTranslator`: its only state relevant here is the `no_reverts` construction
flag disabling all revert generation for the translation run. -/
structure ArithmeticTranslator where
  no_reverts : Bool

/-- `ArithmeticTranslator._set_overflow_flag`: append `$overflow := true`. -/
def set_overflow_flag (res : List Stmt) : List Stmt :=
  res ++ [Stmt.LocalVarAssign OVERFLOW Expr.TrueLit]

/-- `ArithmeticTranslator.check_underflow`: guard `arg < type.lower`.  For unsigned types the
guard is an ordinary revert; otherwise it sets the sticky overflow flag first and is dropped
entirely when the `no_overflows` option is enabled. -/
def check_underflow (t : ArithmeticTranslator) (arg : Expr) (ty : VyperType)
    (res : List Stmt) (ctx : Context) : List Stmt :=
  let lower := Expr.IntLit (type_lower ty)
  let lt := Expr.LtCmp arg lower
  if is_unsigned ty && !t.no_reverts then
    fail_if lt [] res ctx
  else if !t.no_reverts && !(ctx.has_option CONFIG_NO_OVERFLOWS) then
    fail_if lt (set_overflow_flag []) res ctx
  else
    res

/-- `ArithmeticTranslator.check_overflow`: guard `arg > type.upper`, setting the sticky
overflow flag, unless `no_overflows` (or `no_reverts`) disables it. -/
def check_overflow (t : ArithmeticTranslator) (arg : Expr) (ty : VyperType)
    (res : List Stmt) (ctx : Context) : List Stmt :=
  let upper := Expr.IntLit (type_upper ty)
  let gt := Expr.GtCmp arg upper
  if !t.no_reverts && !(ctx.has_option CONFIG_NO_OVERFLOWS) then
    fail_if gt (set_overflow_flag []) res ctx
  else
    res

/-- `ArithmeticTranslator.check_under_overflow`: unsigned types check under- and overflow
separately (underflow is a plain revert); other bounded types use one disjunctive guard that
sets the sticky flag, unless `no_overflows` disables it. -/
def check_under_overflow (t : ArithmeticTranslator) (arg : Expr) (ty : VyperType)
    (res : List Stmt) (ctx : Context) : List Stmt :=
  if is_unsigned ty && !t.no_reverts then
    check_overflow t arg ty (check_underflow t arg ty res ctx) ctx
  else if !t.no_reverts && !(ctx.has_option CONFIG_NO_OVERFLOWS) then
    let lt := Expr.LtCmp arg (Expr.IntLit (type_lower ty))
    let gt := Expr.GtCmp arg (Expr.IntLit (type_upper ty))
    fail_if (Expr.Or lt gt) (set_overflow_flag []) res ctx
  else
    res

/-- `ast.ArithmeticOperator`. -/
inductive ArithmeticOperator where
  | add | sub | mul | div | mod | pow
deriving DecidableEq, Repr

/-- The `_arithmetic_ops` dispatch table. -/
def arithmetic_ops (op : ArithmeticOperator) (l r : Expr) : Expr :=
  match op with
  | .add => Expr.Add l r
  | .sub => Expr.Sub l r
  | .mul => Expr.Mul l r
  | .div => Expr.Div l r
  | .mod => Expr.Mod l r
  | .pow => Expr.Pow l r

/-- `types.VYPER_DECIMAL.scaling_factor` (10 digits). -/
def scaling_factor : Int := 10 ^ 10

/-- `ArithmeticTranslator.decimal_mul`: multiply, then divide out one scaling factor. -/
def decimal_mul (lhs rhs : Expr) : Expr :=
  Expr.Div (Expr.Mul lhs rhs) (Expr.IntLit scaling_factor)

/-- `ArithmeticTranslator.decimal_div`: multiply the dividend by the scaling factor first. -/
def decimal_div (lhs rhs : Expr) : Expr :=
  Expr.Div (Expr.Mul lhs (Expr.IntLit scaling_factor)) rhs

/-- `ArithmeticTranslator.arithmetic_op`: for `/` and `%` (and `no_reverts` off) first emit the
division-by-zero guard, then build the operator expression (with the two decimal special
cases), then emit the bound checks for bounded result types.  Returns the expression and the
extended statement accumulator. -/
def arithmetic_op (t : ArithmeticTranslator) (lhs : Expr) (op : ArithmeticOperator)
    (rhs : Expr) (otype : VyperType) (res : List Stmt) (ctx : Context) :
    Expr × List Stmt :=
  let res1 :=
    if (op == ArithmeticOperator.div || op == ArithmeticOperator.mod) && !t.no_reverts then
      fail_if (Expr.EqCmp rhs (Expr.IntLit 0)) [] res ctx
    else
      res
  let expr :=
    if op == ArithmeticOperator.mul && otype == VYPER_DECIMAL then
      decimal_mul lhs rhs
    else if op == ArithmeticOperator.div && otype == VYPER_DECIMAL then
      decimal_div lhs rhs
    else
      arithmetic_ops op lhs rhs
  let res2 :=
    if is_bounded otype then check_under_overflow t expr otype res1 ctx else res1
  (expr, res2)

end Arith

namespace Checker

/-- The `_Context` enum of structure_checker.py. -/
inductive Ctx where
  | code
  | invariant
  | check
  | postcondition
  | transitive_postcondition
  | ghost_code
  | ghost_function
  | ghost_statement
deriving DecidableEq, Repr

/-- The string value of each `_Context` member. -/
def Ctx.value : Ctx → String
  | .code => "code"
  | .invariant => "invariant"
  | .check => "check"
  | .postcondition => "postcondition"
  | .transitive_postcondition => "transitive.postcondition"
  | .ghost_code => "ghost.code"
  | .ghost_function => "ghost.function"
  | .ghost_statement => "ghost.statement"

/-- Modelled from the spec: twovyper/ast/names.py is not part of the source tree.  The reserved
environment name for the message object is `msg` and the block object is `block`. -/
def MSG : String := "msg"

/-- Modelled from the spec: the reserved environment name `block`. -/
def BLOCK : String := "block"

/-- Modelled from the spec: the quantifier call names `forall` and `foreach`. -/
def FORALL : String := "forall"

/-- Modelled from the spec: the `foreach` quantifier call name. -/
def FOREACH : String := "foreach"

/-- Modelled from the spec: the `old(...)` specification call name. -/
def OLD : String := "old"

/-- Modelled from the spec: the `success(...)` specification call name. -/
def SUCCESS : String := "success"

/-- Modelled from the spec: the single keyword `success` accepts. -/
def SUCCESS_IF_NOT : String := "if_not"

/-- Modelled from the spec: the constructor function name. -/
def INIT : String := "__init__"

/-- Modelled from the spec: `names.ENV_VARIABLES`, the reserved environment names. -/
def ENV_VARIABLES : List String := ["msg", "block", "chain", "tx"]

/-- Modelled from the spec: the fixed success-condition vocabulary usable under
`success(if_not=...)` (the spec names `overflow` and `out_of_gas`). -/
def SUCCESS_CONDITIONS : List String := ["overflow", "out_of_gas", "sender_failed"]

/-- Modelled from the spec: the resource-allocation ghost-statement family. -/
def GHOST_STATEMENTS : List String :=
  ["reallocate", "offer", "revoke", "exchange", "create", "destroy", "trust"]

/-- Modelled from the spec: the ghost statements a `foreach` body may consist of. -/
def QUANTIFIED_GHOST_STATEMENTS : List String := ["offer", "revoke", "trust"]

/-- `ast.BoolOperator`. -/
inductive BoolOperator where
  | and_op
  | or_op
  | implies_op
deriving DecidableEq, Repr

/-- The fragment of the twovyper AST the structure-checker claims exercise: names, literals,
attribute access, boolean operations, dict/set literals, keyword arguments and function calls.
Receiver calls, exchanges and the resource slot of allocation calls are outside this fragment
(no claim mentions them). -/
inductive VNode where
  | name (id : String)
  | num (n : Int)
  | attribute (value : VNode) (attr : String)
  | boolOp (left : VNode) (op : BoolOperator) (right : VNode)
  | dictNode (keys : List VNode) (values : List VNode)
  | setNode (elems : List VNode)
  | keyword (kname : String) (value : VNode)
  | funCall (fname : String) (args : List VNode) (keywords : List VNode)

/-- The `isinstance(_, ast.Name)` test. -/
def is_name : VNode → Bool
  | .name _ => true
  | _ => false

/-- The `isinstance(_, ast.Dict)` test. -/
def is_dict : VNode → Bool
  | .dictNode _ _ => true
  | _ => false

/-- The `isinstance(_, ast.Set)` test. -/
def is_set : VNode → Bool
  | .setNode _ => true
  | _ => false

/-- The `isinstance(_, ast.AllowedInGhostCode)` test of the dispatching `visit`.  Every node
kind of this fragment is an expression node, all of which carry the marker in ast_nodes.py
(which is not part of the source tree); the test therefore never fails inside the fragment. -/
def allowed_in_ghost_code : VNode → Bool := fun _ => true

/-- Splits a list into its leading elements and its last element, the way the `forall` branch
splits `node.args[1:]` into triggers (`args[1:len(args)-1]`) and body (`args[-1]`). -/
def split_last : List VNode → Option (List VNode × VNode)
  | [] => none
  | [x] => some ([], x)
  | x :: y :: xs =>
    match split_last (y :: xs) with
    | some (ini, la) => some (x :: ini, la)
    | none => none

theorem sizeOf_append_vnode (l1 l2 : List VNode) : sizeOf (l1 ++ l2) + 1 = sizeOf l1 + sizeOf l2 := by
  induction l1 with
  | nil => simp [List.nil_append]; omega
  | cons a t ih => simp only [List.cons_append, List.cons.sizeOf_spec]; omega

theorem split_last_size {l : List VNode} {ini : List VNode} {la : VNode}
    (h : split_last l = some (ini, la)) : sizeOf ini < sizeOf l ∧ sizeOf la < sizeOf l := by
  induction l generalizing ini la with
  | nil => simp [split_last] at h
  | cons x xs ih =>
    cases xs with
    | nil =>
      simp only [split_last] at h
      cases h
      simp only [List.cons.sizeOf_spec, List.nil.sizeOf_spec]
      omega
    | cons y ys =>
      simp only [split_last] at h
      cases hr : split_last (y :: ys) with
      | none => rw [hr] at h; simp at h
      | some p =>
        obtain ⟨ini', la'⟩ := p
        rw [hr] at h
        simp at h
        obtain ⟨h1, h2⟩ := h
        obtain ⟨hi, hl⟩ := ih hr
        subst h1 h2
        simp only [List.cons.sizeOf_spec] at hi hl ⊢
        omega

/-- The `check_success_args` helper nested in `visit_FunctionCall`: the `if_not=` value must
be built from success-condition names combined with `or`. -/
def check_success_args : VNode → Except String Unit
  | .name id =>
      if SUCCESS_CONDITIONS.contains id then Except.ok () else Except.error "spec.success"
  | .boolOp l op r =>
      if op == BoolOperator.or_op then do
        check_success_args l
        check_success_args r
      else Except.error "spec.success"
  | _ => Except.error "spec.success"

/-- `StructureChecker.visit_Name`: in a ghost function no environment variable may be named;
in an invariant `msg` and `block` are rejected; in a transitive postcondition `msg` is
rejected. -/
def visit_Name (id : String) (ctx : Ctx) : Except String Unit :=
  if ctx == Ctx.ghost_function && ENV_VARIABLES.contains id then
    if ENV_VARIABLES.contains id then Except.error "invalid.ghost.function" else Except.ok ()
  else if ctx == Ctx.invariant then
    if id == MSG then Except.error "invariant.msg"
    else if id == BLOCK then Except.error "invariant.block"
    else Except.ok ()
  else if ctx == Ctx.transitive_postcondition then
    if id == MSG then Except.error "postcondition.msg" else Except.ok ()
  else
    Except.ok ()

mutual

/-- The dispatching `StructureChecker.visit` over the embedded fragment, carrying the
`self.allowed` forbidden-call-name table `al` and the name of the enclosing function `fn`
(used by the `postcondition.init.old` check).  Node kinds without a dedicated `visit_<Kind>`
method fall through to `generic_visit`, which visits every child under the same context.
The branches of `visit_FunctionCall` for `accessible`, `independent`, `raw_call` and for
resource arguments are outside the fragment: those call names take the generic path here, and
consequently the inside-`old` flag (only read by the `accessible` branch) is not threaded. -/
def visit (al : Ctx → List String) (fn : Option String) : VNode → Ctx → Except String Unit
  | .name id, ctx =>
      if ctx == Ctx.ghost_code && !allowed_in_ghost_code (.name id) then
        Except.error "invalid.ghost.code"
      else visit_Name id ctx
  | .num n, ctx =>
      if ctx == Ctx.ghost_code && !allowed_in_ghost_code (.num n) then
        Except.error "invalid.ghost.code"
      else Except.ok ()
  | .attribute v a, ctx =>
      if ctx == Ctx.ghost_code && !allowed_in_ghost_code (.attribute v a) then
        Except.error "invalid.ghost.code"
      else visit al fn v ctx
  | .boolOp l op r, ctx =>
      if ctx == Ctx.ghost_code && !allowed_in_ghost_code (.boolOp l op r) then
        Except.error "invalid.ghost.code"
      else do
        visit al fn l ctx
        visit al fn r ctx
  | .dictNode ks vs, ctx =>
      if ctx == Ctx.ghost_code && !allowed_in_ghost_code (.dictNode ks vs) then
        Except.error "invalid.ghost.code"
      else do
        visit_list al fn ks ctx
        visit_list al fn vs ctx
  | .setNode es, ctx =>
      if ctx == Ctx.ghost_code && !allowed_in_ghost_code (.setNode es) then
        Except.error "invalid.ghost.code"
      else visit_list al fn es ctx
  | .keyword k v, ctx =>
      if ctx == Ctx.ghost_code && !allowed_in_ghost_code (.keyword k v) then
        Except.error "invalid.ghost.code"
      else visit al fn v ctx
  | .funCall f args kws, ctx =>
      if ctx == Ctx.ghost_code && !allowed_in_ghost_code (.funCall f args kws) then
        Except.error "invalid.ghost.code"
      else visit_FunctionCall al fn f args kws ctx
termination_by n _ => sizeOf n
decreasing_by all_goals (simp_wf; try omega)

/-- `StructureChecker.visit_FunctionCall` over the embedded fragment (see `visit`). -/
def visit_FunctionCall (al : Ctx → List String) (fn : Option String) (f : String)
    (args kws : List VNode) (ctx : Ctx) : Except String Unit := do
  if (al ctx).contains f then
    throw (ctx.value ++ ".call")
  if ctx == Ctx.postcondition && fn == some INIT && f == OLD then
    throw "postcondition.init.old"
  if f == SUCCESS then
    if kws.length > 1 then
      throw "spec.success"
    match kws with
    | [] => pure ()
    | kw :: _ =>
      match kw with
      | .keyword kname kval =>
          if kname == SUCCESS_IF_NOT then check_success_args kval
          else throw "spec.success"
      | _ => throw "spec.success"
  else if f == FORALL || f == FOREACH then
    if !(args.length ≥ 2 && kws.isEmpty) then
      throw "invalid.no.args"
    match args with
    | [] => throw "invalid.no.args"
    | a0 :: rest =>
      if !is_dict a0 then
        throw ("invalid." ++ f)
      match a0 with
      | .dictNode ks _ =>
          if !(ks.all is_name) then
            throw ("invalid." ++ f)
          match hsl : split_last rest with
          | none => throw "invalid.no.args"
          | some (triggers, body) =>
              visit_triggers al fn f triggers ctx
              if f == FOREACH then
                match body with
                | .funCall g _ _ =>
                    if !(QUANTIFIED_GHOST_STATEMENTS.contains g) then
                      throw "invalid.foreach"
                | _ => throw "invalid.foreach"
              visit al fn body ctx
      | _ => throw ("invalid." ++ f)
  else if f == OLD then
    visit_list al fn (args ++ kws) ctx
  else
    let arg_ctx := if GHOST_STATEMENTS.contains f then Ctx.ghost_statement else ctx
    visit_list al fn (args ++ kws) arg_ctx
termination_by sizeOf args + sizeOf kws
decreasing_by
  all_goals simp_wf
  · have h := split_last_size hsl
    simp only [List.cons.sizeOf_spec] at h ⊢
    omega
  · have h := split_last_size hsl
    simp only [List.cons.sizeOf_spec] at h ⊢
    omega
  · have h := sizeOf_append_vnode args kws
    omega
  · have h := sizeOf_append_vnode args kws
    omega

/-- The trigger loop of the quantifier branch: each trigger must be a set literal and is
visited under the unchanged context. -/
def visit_triggers (al : Ctx → List String) (fn : Option String) (f : String) :
    List VNode → Ctx → Except String Unit
  | [], _ => Except.ok ()
  | t :: rest, ctx => do
      if !is_set t then
        throw ("invalid." ++ f)
      visit al fn t ctx
      visit_triggers al fn f rest ctx
termination_by l _ => sizeOf l
decreasing_by all_goals (simp_wf; try omega)

/-- `self.visit_nodes` / `generic_visit` over a list of children. -/
def visit_list (al : Ctx → List String) (fn : Option String) :
    List VNode → Ctx → Except String Unit
  | [], _ => Except.ok ()
  | n :: rest, ctx => do
      visit al fn n ctx
      visit_list al fn rest ctx
termination_by l _ => sizeOf l
decreasing_by all_goals (simp_wf; try omega)

end

end Checker

namespace ProgNodes

/-- The decimal digit characters of `n`, most significant first: the list underlying
`Nat.repr`, in a directly recursive form convenient for reasoning about `str(counter)`. -/
def natDigits (n : Nat) : List Char :=
  if n < 10 then [Nat.digitChar n]
  else natDigits (n / 10) ++ [Nat.digitChar (n % 10)]
termination_by n
decreasing_by exact Nat.div_lt_self (by omega) (by decide)

theorem natDigits_ne_nil (n : Nat) : natDigits n ≠ [] := by
  rw [natDigits]
  split
  · simp
  · simp

theorem toDigitsCore_eq_natDigits (f : Nat) :
    ∀ (n : Nat) (l : List Char), n < f → Nat.toDigitsCore 10 f n l = natDigits n ++ l := by
  induction f with
  | zero => intro n l h; omega
  | succ f ih =>
    intro n l h
    simp only [Nat.toDigitsCore]
    by_cases hz : n / 10 = 0
    · have hn : n < 10 := by omega
      rw [if_pos hz, natDigits]
      rw [if_pos hn, Nat.mod_eq_of_lt hn]
      simp
    · have hn : ¬(n < 10) := by
        intro hlt
        exact hz (Nat.div_eq_of_lt hlt)
      rw [if_neg hz, ih (n / 10) _ (by omega)]
      conv_rhs => rw [natDigits]
      rw [if_neg hn]
      simp

theorem repr_eq_natDigits (n : Nat) : Nat.repr n = (natDigits n).asString := by
  have h := toDigitsCore_eq_natDigits (n + 1) n [] (by omega)
  simp only [Nat.repr, Nat.toDigits, h, List.append_nil]

theorem digitChar_inj_lt : ∀ a < 10, ∀ b < 10, Nat.digitChar a = Nat.digitChar b → a = b := by
  decide

theorem natDigits_lt (n : Nat) (h : n < 10) : natDigits n = [Nat.digitChar n] := by
  rw [natDigits, if_pos h]

theorem natDigits_ge (n : Nat) (h : ¬n < 10) :
    natDigits n = natDigits (n / 10) ++ [Nat.digitChar (n % 10)] := by
  rw [natDigits, if_neg h]

theorem natDigits_inj : ∀ a b : Nat, natDigits a = natDigits b → a = b := by
  intro a
  induction a using Nat.strong_induction_on with
  | _ a ih =>
    intro b h
    by_cases ha : a < 10 <;> by_cases hb : b < 10
    · rw [natDigits_lt a ha, natDigits_lt b hb] at h
      simp only [List.cons.injEq, and_true] at h
      exact digitChar_inj_lt a ha b hb h
    · rw [natDigits_lt a ha, natDigits_ge b hb] at h
      have hlen := congrArg List.length h
      simp only [List.length_cons, List.length_nil, List.length_append] at hlen
      exact absurd (List.length_eq_zero.mp (by omega)) (natDigits_ne_nil (b / 10))
    · rw [natDigits_ge a ha, natDigits_lt b hb] at h
      have hlen := congrArg List.length h
      simp only [List.length_cons, List.length_nil, List.length_append] at hlen
      exact absurd (List.length_eq_zero.mp (by omega)) (natDigits_ne_nil (a / 10))
    · rw [natDigits_ge a ha, natDigits_ge b hb] at h
      have hp := List.append_inj' h (by simp)
      obtain ⟨h1, h2⟩ := hp
      have hdiv : a / 10 = b / 10 := ih (a / 10) (Nat.div_lt_self (by omega) (by decide)) _ h1
      simp only [List.cons.injEq, and_true] at h2
      have hmod : a % 10 = b % 10 :=
        digitChar_inj_lt (a % 10) (Nat.mod_lt _ (by decide)) (b % 10) (Nat.mod_lt _ (by decide)) h2
      omega

theorem asString_inj {l1 l2 : List Char} (h : l1.asString = l2.asString) : l1 = l2 := by
  have hd := congrArg String.data h
  simpa [List.asString] using hd

theorem nat_repr_inj {a b : Nat} (h : Nat.repr a = Nat.repr b) : a = b :=
  natDigits_inj a b (asString_inj (by rwa [repr_eq_natDigits, repr_eq_natDigits] at h))

/-- The candidate name `name + '_' + str(counter)` built by `get_fresh_name`. -/
def sfx (name : String) (k : Nat) : String :=
  name ++ "_" ++ Nat.repr k

theorem sfx_inj (name : String) : Function.Injective (sfx name) := by
  intro a b h
  have hd := congrArg String.data h
  simp only [sfx, String.data_append] at hd
  have := List.append_cancel_left hd
  exact nat_repr_inj (String.ext this)

/-- `PythonScope` of program_nodes.py: a list of issued IR names `sil_names` plus an optional
`superscope`. -/
inductive PythonScope where
  | root (sil_names : List String)
  | child (sil_names : List String) (superscope : PythonScope)
deriving DecidableEq, Repr

/-- `PythonScope.contains_name`: the name occurs in this scope's issued names or in some
ancestor scope's. -/
def contains_name : PythonScope → String → Bool
  | .root ns, n => ns.contains n
  | .child ns sup, n => ns.contains n || contains_name sup n

/-- Every name issued anywhere along the scope chain. -/
def all_names : PythonScope → List String
  | .root ns => ns
  | .child ns sup => ns ++ all_names sup

theorem contains_name_iff (s : PythonScope) (n : String) :
    contains_name s n = true ↔ n ∈ all_names s := by
  induction s with
  | root ns => simp [contains_name, all_names]
  | child ns sup ih => simp [contains_name, all_names, ih]

/-- `self.sil_names.append(n)`: record a name in the scope itself. -/
def add_name : PythonScope → String → PythonScope
  | .root ns, n => .root (ns ++ [n])
  | .child ns sup, n => .child (ns ++ [n]) sup

/-- The `while self.contains_name(new_name): counter += 1; ...` loop of `get_fresh_name`.
The Python loop carries no fuel; `fresh_loop_finds_least` below together with
`exists_free_counter` shows the fuel passed by `get_fresh_name` is never exhausted, so this
is extensionally the source loop. -/
def fresh_loop (s : PythonScope) (name : String) : Nat → Nat → String
  | 0, counter => sfx name counter
  | fuel + 1, counter =>
      let new_name := sfx name counter
      if contains_name s new_name then fresh_loop s name fuel (counter + 1)
      else new_name

/-- `PythonScope.get_fresh_name(name)`: return `name` itself when it is free in the whole
scope chain, else the first collision-free `name_0`, `name_1`, …; either way the returned
name is appended to this scope's `sil_names`. -/
def get_fresh_name (s : PythonScope) (name : String) : String × PythonScope :=
  if contains_name s name then
    let n := fresh_loop s name ((all_names s).length + 1) 0
    (n, add_name s n)
  else
    (name, add_name s name)

theorem fresh_loop_finds_least (s : PythonScope) (name : String) :
    ∀ (fuel counter k : Nat), counter ≤ k → k < counter + fuel →
      contains_name s (sfx name k) = false →
      (∀ j, counter ≤ j → j < k → contains_name s (sfx name j) = true) →
      fresh_loop s name fuel counter = sfx name k := by
  intro fuel
  induction fuel with
  | zero => intro counter k h1 h2 _ _; omega
  | succ fuel ih =>
    intro counter k h1 h2 hfree hbelow
    simp only [fresh_loop]
    by_cases hc : contains_name s (sfx name counter) = true
    · rw [if_pos hc]
      have hne : counter ≠ k := by
        intro he
        rw [he] at hc
        rw [hfree] at hc
        exact Bool.false_ne_true hc
      exact ih (counter + 1) k (by omega) (by omega) hfree
        (fun j hj1 hj2 => hbelow j (by omega) hj2)
    · have hck : counter = k := by
        by_contra hne
        exact hc (hbelow counter (le_refl _) (by omega))
      rw [Bool.not_eq_true] at hc
      rw [if_neg (by simp [hc])]
      rw [hck]

theorem exists_free_counter (s : PythonScope) (name : String) :
    ∃ k, k ≤ (all_names s).length ∧ contains_name s (sfx name k) = false := by
  by_contra hcon
  push_neg at hcon
  have hall : ∀ k ≤ (all_names s).length, sfx name k ∈ all_names s := by
    intro k hk
    have := hcon k hk
    rw [← contains_name_iff]
    cases hb : contains_name s (sfx name k) with
    | false => exact absurd hb this
    | true => rfl
  set N := (all_names s).length with hN
  have hsub : (Finset.range (N + 1)).image (sfx name) ⊆ (all_names s).toFinset := by
    intro x hx
    simp only [Finset.mem_image, Finset.mem_range] at hx
    obtain ⟨k, hk, rfl⟩ := hx
    exact List.mem_toFinset.mpr (hall k (by omega))
  have hcard1 : ((Finset.range (N + 1)).image (sfx name)).card = N + 1 := by
    rw [Finset.card_image_of_injective _ (sfx_inj name), Finset.card_range]
  have hcard2 : (all_names s).toFinset.card ≤ N := List.toFinset_card_le (all_names s)
  have := Finset.card_le_card hsub
  omega

end ProgNodes

/-!
Theorems settling the claims.
-/

/-- C1: the claim states that `to_big_int` round-trips every integer exactly, in particular
`n = 5000000000` and `n = -5000000000`.  The loop in the source extracts base-`2147483647`
digits least-significant first but folds them into the accumulator as if they arrived
most-significant first, so any value with at least two digits in that base is marshalled to
its digit-reversed value: `5000000000 = 2 * 2147483647 + 705032706` becomes
`705032706 * 2147483647 + 2 = 1514046206735158784`.  This contradicts the stated intent of the
function (the comment in the source says the value is split up only because it does not fit in
a C long) — a code bug. -/
theorem C1_to_big_int_reverses_digits :
    ViperAstLib.to_big_int 5000000000 = 1514046206735158784 ∧
    ViperAstLib.to_big_int 5000000000 ≠ 5000000000 ∧
    ViperAstLib.to_big_int (-5000000000) = -1514046206735158784 ∧
    ViperAstLib.to_big_int (-5000000000) ≠ -5000000000 ∧
    ViperAstLib.to_big_int 3 = 3 := by
  have h : ViperAstLib.to_big_int_loop 5000000000 0 = 1514046206735158784 := by
    simp [ViperAstLib.to_big_int_loop, ViperAstLib.LONG_SIZE]
  have h3 : ViperAstLib.to_big_int_loop 3 0 = 3 := by
    simp [ViperAstLib.to_big_int_loop, ViperAstLib.LONG_SIZE]
  refine ⟨?_, ?_, ?_, ?_, ?_⟩ <;>
    simp [ViperAstLib.to_big_int, h, h3]

/-- C3: the decimal literal `2.3` parses to the fixed-point value `23000000000`
(`2.3 * 10 ^ 10`), and any literal whose fractional part has more than ten digits — such as
`1.12345678901` — is rejected with the `invalid.decimal.literal` structural error instead of
being rounded. -/
theorem C3_decimal_literal :
    Lark.float "2.3" = Except.ok 23000000000 ∧
    (∀ (s first second : String), Lark.py_split s '.' = [first, second] →
      10 < second.length → Lark.float s = Except.error "invalid.decimal.literal") := by
  constructor
  · rfl
  · intro s first second hsplit hlen
    simp only [Lark.float, hsplit]
    rw [if_pos]
    simpa [Lark.numd] using hlen

/-- C4 counterexample: the claim states that the IR name of a generic axiom for base name `n`
is `n` followed by the literal suffix `_ax`, e.g. `foo_ax` for `foo`.  The source appends
`$ax` instead, so the name derived from `foo` is `foo$ax`, not `foo_ax`. -/
theorem C4_counterexample :
    Mangled.ax_name "foo" = "foo$ax" ∧ Mangled.ax_name "foo" ≠ "foo_ax" := by
  constructor
  · rfl
  · decide

/-- C4 (amended): for every base name `n`, the generic-axiom name is `n` followed by the
literal suffix `$ax`. -/
theorem C4_ax_name (n : String) : Mangled.ax_name n = n ++ "$ax" := rfl

/-- C5: all integer types are mutually compatible under `matches` in both directions, and two
non-strict array types with equal element types are compatible exactly when the first one's
declared size is at most the second one's; in particular the byte arrays of capacity 5 and 10
match in one order and not the other. -/
theorem C5_matches_integers_and_arrays :
    VyperTypes.matches_ty VyperTypes.VYPER_INT128 VyperTypes.VYPER_UINT256 = true ∧
    VyperTypes.matches_ty VyperTypes.VYPER_UINT256 VyperTypes.VYPER_INT128 = true ∧
    VyperTypes.matches_ty (.array VyperTypes.VYPER_BYTE 5 false)
      (.array VyperTypes.VYPER_BYTE 10 false) = true ∧
    VyperTypes.matches_ty (.array VyperTypes.VYPER_BYTE 10 false)
      (.array VyperTypes.VYPER_BYTE 5 false) = false ∧
    (∀ (e : VyperTypes.VyperType) (s1 s2 : Nat),
      VyperTypes.matches_ty (.array e s1 false) (.array e s2 false) = true ↔ s1 ≤ s2) := by
  refine ⟨by decide, by decide, by decide, by decide, ?_⟩
  intro e s1 s2
  simp [VyperTypes.matches_ty, VyperTypes.non_strict_array, VyperTypes.element_type,
    VyperTypes.arr_size]

/-- C10: `matches` never relates a strict array type to a non-strict one, in either argument
order (and a strict and a non-strict array type are never the identical type, since the
strictness flag is part of the type); in particular the strict byte array of size 5 does not
match the non-strict byte array of capacity 10 even though its length fits. -/
theorem C10_strict_vs_non_strict :
    (∀ (e1 : VyperTypes.VyperType) (s1 : Nat) (e2 : VyperTypes.VyperType) (s2 : Nat),
      VyperTypes.matches_ty (.array e1 s1 true) (.array e2 s2 false) = false ∧
      VyperTypes.matches_ty (.array e2 s2 false) (.array e1 s1 true) = false ∧
      VyperTypes.VyperType.array e1 s1 true ≠ VyperTypes.VyperType.array e2 s2 false) ∧
    VyperTypes.matches_ty (.array VyperTypes.VYPER_BYTE 5 true)
      (.array VyperTypes.VYPER_BYTE 10 false) = false := by
  refine ⟨?_, by decide⟩
  intro e1 s1 e2 s2
  refine ⟨?_, ?_, by simp⟩ <;>
    simp [VyperTypes.matches_ty, VyperTypes.non_strict_array, VyperTypes.is_integer,
      VyperTypes.is_contract, VyperTypes.VYPER_INT128, VyperTypes.VYPER_UINT256,
      VyperTypes.VYPER_ADDRESS]

theorem foldl_max_spec (xs : List VyperTypes.VyperType) :
    ∀ x : VyperTypes.VyperType,
      (xs.foldl (fun acc t => if VyperTypes.arr_size t > VyperTypes.arr_size acc then t else acc)
        x) ∈ x :: xs ∧
      VyperTypes.arr_size x ≤ VyperTypes.arr_size
        (xs.foldl (fun acc t => if VyperTypes.arr_size t > VyperTypes.arr_size acc then t
          else acc) x) ∧
      ∀ t ∈ xs, VyperTypes.arr_size t ≤ VyperTypes.arr_size
        (xs.foldl (fun acc t => if VyperTypes.arr_size t > VyperTypes.arr_size acc then t
          else acc) x) := by
  induction xs with
  | nil => intro x; simp
  | cons y ys ih =>
    intro x
    simp only [List.foldl_cons]
    obtain ⟨hmem, hacc, hall⟩ := ih (if VyperTypes.arr_size y > VyperTypes.arr_size x then y
      else x)
    refine ⟨?_, ?_, ?_⟩
    · rcases List.mem_cons.mp hmem with h | h
      · rw [h]
        split
        · exact List.mem_cons_of_mem x (List.mem_cons_self y ys)
        · exact List.mem_cons_self x (y :: ys)
      · exact List.mem_cons_of_mem x (List.mem_cons_of_mem y h)
    · refine le_trans ?_ hacc
      split <;> omega
    · intro t ht
      rcases List.mem_cons.mp ht with h | h
      · subst h
        refine le_trans ?_ hacc
        split <;> omega
      · exact hall t h

/-- C6: when `combine` reconciles a non-strict array candidate `e` from the first list, the
candidate contributed from the second list is the non-strict array of matching element type
with the largest declared size among the second list's candidates; when no such candidate
exists the combination fails with the `wrong.type` error. -/
theorem C6_combine_widest_array :
    (∀ (e : VyperTypes.VyperType) (l2 : List VyperTypes.VyperType),
      Annotator.is_array e = true →
      (Annotator.matching_arrays e l2 = [] →
        Annotator.longest_array e l2 = Except.error "wrong.type" ∧
        Annotator.intersect_one e l2 = Except.error "wrong.type") ∧
      (Annotator.matching_arrays e l2 ≠ [] →
        ∃ m, Annotator.longest_array e l2 = Except.ok m ∧
          m ∈ Annotator.matching_arrays e l2 ∧
          (∀ t ∈ Annotator.matching_arrays e l2,
            VyperTypes.arr_size t ≤ VyperTypes.arr_size m) ∧
          Annotator.intersect_one e l2 = Except.ok [m])) ∧
    Annotator.combine_types [.array VyperTypes.VYPER_BYTE 5 false]
      [.array VyperTypes.VYPER_BYTE 7 false, .array VyperTypes.VYPER_BYTE 10 false,
        VyperTypes.VYPER_BOOL] = Except.ok [.array VyperTypes.VYPER_BYTE 10 false] ∧
    Annotator.combine_types [.array VyperTypes.VYPER_BYTE 5 false] [VyperTypes.VYPER_BOOL] =
      Except.error "wrong.type" := by
  refine ⟨?_, rfl, rfl⟩
  intro e l2 he
  constructor
  · intro hemp
    constructor
    · simp [Annotator.longest_array, hemp, Annotator.py_max_by_size]
    · simp [Annotator.intersect_one, he, Annotator.longest_array, hemp,
        Annotator.py_max_by_size, Except.map]
  · intro hne
    cases h : Annotator.matching_arrays e l2 with
    | nil => exact absurd h hne
    | cons x xs =>
      obtain ⟨hmem, _, hall⟩ := foldl_max_spec xs x
      refine ⟨xs.foldl (fun acc t => if VyperTypes.arr_size t > VyperTypes.arr_size acc then t
        else acc) x, ?_, ?_, ?_, ?_⟩
      · simp [Annotator.longest_array, h, Annotator.py_max_by_size]
      · exact hmem
      · intro t ht
        rcases List.mem_cons.mp ht with h1 | h1
        · subst h1
          exact (foldl_max_spec xs t).2.1
        · exact hall t h1
      · simp [Annotator.intersect_one, he, Annotator.longest_array, h,
          Annotator.py_max_by_size, Except.map]

/-- C2: for bounded-result arithmetic with reverts enabled, the unsigned underflow guard is an
ordinary revert (no assignment to the sticky `$overflow` variable) and is emitted for every
configuration, including when the `no_overflows` option is set; the overflow guard, and the
single disjunctive under/overflow guard of the signed types, assign `true` to `$overflow`
before jumping to the revert label and are suppressed exactly when `no_overflows` is set. -/
theorem C2_unsigned_underflow_plain_revert :
    ∀ (t : Arith.ArithmeticTranslator) (arg : Arith.Expr) (ty : VyperTypes.VyperType)
      (res : List Arith.Stmt) (ctx : Arith.Context),
      t.no_reverts = false →
      (VyperTypes.is_unsigned ty = true →
        Arith.check_underflow t arg ty res ctx =
          res ++ [Arith.Stmt.If (Arith.Expr.LtCmp arg (Arith.Expr.IntLit (Arith.type_lower ty)))
            [Arith.Stmt.Goto ctx.revert_label] []]) ∧
      (ctx.has_option Arith.CONFIG_NO_OVERFLOWS = false →
        Arith.check_overflow t arg ty res ctx =
          res ++ [Arith.Stmt.If (Arith.Expr.GtCmp arg (Arith.Expr.IntLit (Arith.type_upper ty)))
            [Arith.Stmt.LocalVarAssign Arith.OVERFLOW Arith.Expr.TrueLit,
             Arith.Stmt.Goto ctx.revert_label] []]) ∧
      (ctx.has_option Arith.CONFIG_NO_OVERFLOWS = true →
        Arith.check_overflow t arg ty res ctx = res) ∧
      (VyperTypes.is_unsigned ty = true → ctx.has_option Arith.CONFIG_NO_OVERFLOWS = true →
        Arith.check_under_overflow t arg ty res ctx =
          res ++ [Arith.Stmt.If (Arith.Expr.LtCmp arg (Arith.Expr.IntLit (Arith.type_lower ty)))
            [Arith.Stmt.Goto ctx.revert_label] []]) ∧
      (VyperTypes.is_unsigned ty = false → ctx.has_option Arith.CONFIG_NO_OVERFLOWS = false →
        Arith.check_under_overflow t arg ty res ctx =
          res ++ [Arith.Stmt.If
            (Arith.Expr.Or (Arith.Expr.LtCmp arg (Arith.Expr.IntLit (Arith.type_lower ty)))
              (Arith.Expr.GtCmp arg (Arith.Expr.IntLit (Arith.type_upper ty))))
            [Arith.Stmt.LocalVarAssign Arith.OVERFLOW Arith.Expr.TrueLit,
             Arith.Stmt.Goto ctx.revert_label] []]) ∧
      (VyperTypes.is_unsigned ty = false → ctx.has_option Arith.CONFIG_NO_OVERFLOWS = true →
        Arith.check_under_overflow t arg ty res ctx = res) := by
  intro t arg ty res ctx hnr
  refine ⟨?_, ?_, ?_, ?_, ?_, ?_⟩
  · intro hu
    simp [Arith.check_underflow, Arith.fail_if, hu, hnr]
  · intro hno
    simp [Arith.check_overflow, Arith.fail_if, Arith.set_overflow_flag, hno, hnr]
  · intro hno
    simp [Arith.check_overflow, hno, hnr]
  · intro hu hno
    simp [Arith.check_under_overflow, Arith.check_underflow, Arith.check_overflow,
      Arith.fail_if, hu, hno, hnr]
  · intro hu hno
    simp [Arith.check_under_overflow, Arith.fail_if, Arith.set_overflow_flag, hu, hno, hnr]
  · intro hu hno
    simp [Arith.check_under_overflow, hu, hno, hnr]

theorem check_underflow_appends (t : Arith.ArithmeticTranslator) (e : Arith.Expr)
    (ty : VyperTypes.VyperType) (res : List Arith.Stmt) (ctx : Arith.Context) :
    ∃ rest, Arith.check_underflow t e ty res ctx = res ++ rest := by
  unfold Arith.check_underflow Arith.fail_if
  split
  · exact ⟨_, rfl⟩
  · split
    · exact ⟨_, rfl⟩
    · exact ⟨[], (List.append_nil res).symm⟩

theorem check_overflow_appends (t : Arith.ArithmeticTranslator) (e : Arith.Expr)
    (ty : VyperTypes.VyperType) (res : List Arith.Stmt) (ctx : Arith.Context) :
    ∃ rest, Arith.check_overflow t e ty res ctx = res ++ rest := by
  unfold Arith.check_overflow Arith.fail_if
  split
  · exact ⟨_, rfl⟩
  · exact ⟨[], (List.append_nil res).symm⟩

theorem check_under_overflow_appends (t : Arith.ArithmeticTranslator) (e : Arith.Expr)
    (ty : VyperTypes.VyperType) (res : List Arith.Stmt) (ctx : Arith.Context) :
    ∃ rest, Arith.check_under_overflow t e ty res ctx = res ++ rest := by
  unfold Arith.check_under_overflow
  split
  · obtain ⟨r1, h1⟩ := check_underflow_appends t e ty res ctx
    obtain ⟨r2, h2⟩ := check_overflow_appends t e ty (Arith.check_underflow t e ty res ctx) ctx
    exact ⟨r1 ++ r2, by rw [h2, h1, List.append_assoc]⟩
  · split
    · exact ⟨_, rfl⟩
    · exact ⟨[], (List.append_nil res).symm⟩

/-- C7: whenever the translation run has reverts enabled, lowering a division or modulo
operation first appends the divisor-equals-zero guard (an ordinary jump to the revert label)
to the statement accumulator — before any bound-check statement — and does so for every
program configuration, in particular also when the `no_overflows` option is set. -/
theorem C7_division_by_zero_guard :
    ∀ (t : Arith.ArithmeticTranslator) (lhs rhs : Arith.Expr) (op : Arith.ArithmeticOperator)
      (otype : VyperTypes.VyperType) (res : List Arith.Stmt) (ctx : Arith.Context),
      t.no_reverts = false →
      op = Arith.ArithmeticOperator.div ∨ op = Arith.ArithmeticOperator.mod →
      ∃ rest, (Arith.arithmetic_op t lhs op rhs otype res ctx).2 =
        res ++ Arith.Stmt.If (Arith.Expr.EqCmp rhs (Arith.Expr.IntLit 0))
          [Arith.Stmt.Goto ctx.revert_label] [] :: rest := by
  intro t lhs rhs op otype res ctx hnr hop
  have hcond : ((op == Arith.ArithmeticOperator.div || op == Arith.ArithmeticOperator.mod)
      && !t.no_reverts) = true := by
    rcases hop with h | h <;> subst h <;> rw [hnr] <;> rfl
  simp only [Arith.arithmetic_op, hcond, if_true]
  split
  · obtain ⟨r2, h2⟩ :=
      check_under_overflow_appends t
        (if (op == Arith.ArithmeticOperator.mul && otype == VyperTypes.VYPER_DECIMAL) = true then
          Arith.decimal_mul lhs rhs
        else if (op == Arith.ArithmeticOperator.div
            && otype == VyperTypes.VYPER_DECIMAL) = true then
          Arith.decimal_div lhs rhs
        else Arith.arithmetic_ops op lhs rhs) otype
        (Arith.fail_if (Arith.Expr.EqCmp rhs (Arith.Expr.IntLit 0)) [] res ctx) ctx
    refine ⟨r2, ?_⟩
    rw [h2]
    simp [Arith.fail_if]
  · exact ⟨[], by simp [Arith.fail_if]⟩

theorem except_bind_ok {e a b : Type} (x : a) (f : a → Except e b) :
    (Except.ok x >>= f) = f x := rfl

theorem except_bind_error {e a b : Type} (err : e) (f : a → Except e b) :
    ((Except.error err : Except e a) >>= f) = Except.error err := rfl

theorem except_pure_eq_ok {e a : Type} (x : a) : (pure x : Except e a) = Except.ok x := rfl

theorem throw_eq_error {e a : Type} (err : e) : (throw err : Except e a) = Except.error err := rfl

set_option maxRecDepth 4000 in
/-- C8: the structure checker visits the body (the last argument) of a `forall` or `foreach`
quantifier call under the same context tag as the call itself — the context does not reset to
`CODE` inside a quantifier body — so an invariant containing a `forall` whose body references
`msg` fails with the `invariant.msg` structural error exactly as a direct reference would. -/
theorem C8_quantifier_body_context :
    (∀ (al : Checker.Ctx → List String) (fn : Option String) (ctx : Checker.Ctx)
      (keys vals : List Checker.VNode) (body : Checker.VNode),
      (al ctx).contains Checker.FORALL = false →
      keys.all Checker.is_name = true →
      Checker.visit al fn (.funCall Checker.FORALL [.dictNode keys vals, body] []) ctx =
        Checker.visit al fn body ctx) ∧
    (∀ (al : Checker.Ctx → List String) (fn : Option String) (ctx : Checker.Ctx)
      (keys vals gargs gkws : List Checker.VNode) (g : String),
      (al ctx).contains Checker.FOREACH = false →
      keys.all Checker.is_name = true →
      Checker.QUANTIFIED_GHOST_STATEMENTS.contains g = true →
      Checker.visit al fn
        (.funCall Checker.FOREACH [.dictNode keys vals, .funCall g gargs gkws] []) ctx =
        Checker.visit al fn (.funCall g gargs gkws) ctx) ∧
    (∀ (al : Checker.Ctx → List String) (fn : Option String)
      (keys vals : List Checker.VNode),
      (al Checker.Ctx.invariant).contains Checker.FORALL = false →
      keys.all Checker.is_name = true →
      Checker.visit al fn
        (.funCall Checker.FORALL [.dictNode keys vals, .name Checker.MSG] [])
        Checker.Ctx.invariant = Except.error "invariant.msg") := by
  have hb1 : (("forall" : String) == "success") = false := by decide
  have hb2 : (("forall" : String) == "old") = false := by decide
  have hb3 : (("foreach" : String) == "success") = false := by decide
  have hb4 : (("foreach" : String) == "old") = false := by decide
  have hb5 : (("foreach" : String) == "forall") = false := by decide
  have hforall : ∀ (al : Checker.Ctx → List String) (fn : Option String) (ctx : Checker.Ctx)
      (keys vals : List Checker.VNode) (body : Checker.VNode),
      (al ctx).contains Checker.FORALL = false →
      keys.all Checker.is_name = true →
      Checker.visit al fn (.funCall Checker.FORALL [.dictNode keys vals, body] []) ctx =
        Checker.visit al fn body ctx := by
    intro al fn ctx keys vals body h1 h2
    have h1m : "forall" ∉ al ctx := by simpa [Checker.FORALL] using h1
    simp [Checker.visit, Checker.visit_FunctionCall, Checker.allowed_in_ghost_code, h1m, h2,
      Checker.FORALL, Checker.SUCCESS, Checker.OLD, Checker.FOREACH, Checker.split_last,
      Checker.is_dict, Checker.visit_triggers, hb1, hb2, except_bind_ok, except_bind_error,
      except_pure_eq_ok, throw_eq_error]
  refine ⟨hforall, ?_, ?_⟩
  · intro al fn ctx keys vals gargs gkws g h1 h2 h3
    have h1m : "foreach" ∉ al ctx := by simpa [Checker.FOREACH] using h1
    have h3m : g ∈ Checker.QUANTIFIED_GHOST_STATEMENTS := by simpa using h3
    simp [Checker.visit, Checker.visit_FunctionCall, Checker.allowed_in_ghost_code, h1m, h2,
      h3m, Checker.FOREACH, Checker.SUCCESS, Checker.OLD, Checker.FORALL, Checker.split_last,
      Checker.is_dict, Checker.visit_triggers, hb3, hb4, hb5, except_bind_ok,
      except_bind_error, except_pure_eq_ok, throw_eq_error]
  · intro al fn keys vals h1 h2
    rw [hforall al fn Checker.Ctx.invariant keys vals (.name Checker.MSG) h1 h2]
    simp [Checker.visit, Checker.visit_Name, Checker.allowed_in_ghost_code, Checker.MSG,
      Checker.ENV_VARIABLES]

/-- C9: `get_fresh_name(base)` returns `base` itself when it occurs neither in the scope's own
issued names nor anywhere up the superscope chain, and otherwise the first suffix-numbered
name `base_0`, `base_1`, … absent from the whole chain, recording the returned name in the
scope; so requesting `foo` twice in one scope yields `foo` then `foo_0`, and requesting `foo`
in a child of a scope already holding `foo` yields `foo_0`. -/
theorem C9_get_fresh_name :
    (∀ (s : ProgNodes.PythonScope) (name : String),
      (ProgNodes.contains_name s name = false →
        ProgNodes.get_fresh_name s name = (name, ProgNodes.add_name s name)) ∧
      (ProgNodes.contains_name s name = true →
        ∃ k, ProgNodes.contains_name s (ProgNodes.sfx name k) = false ∧
          (∀ j < k, ProgNodes.contains_name s (ProgNodes.sfx name j) = true) ∧
          ProgNodes.get_fresh_name s name =
            (ProgNodes.sfx name k, ProgNodes.add_name s (ProgNodes.sfx name k)))) ∧
    ProgNodes.get_fresh_name (.root []) "foo" = ("foo", .root ["foo"]) ∧
    ProgNodes.get_fresh_name (.root ["foo"]) "foo" = ("foo_0", .root ["foo", "foo_0"]) ∧
    ProgNodes.get_fresh_name (.child [] (.root ["foo"])) "foo" =
      ("foo_0", .child ["foo_0"] (.root ["foo"])) := by
  refine ⟨?_, by decide, by decide, by decide⟩
  intro s name
  constructor
  · intro h
    simp [ProgNodes.get_fresh_name, h]
  · intro h
    obtain ⟨k0, hk0le, hk0⟩ := ProgNodes.exists_free_counter s name
    have hex : ∃ k, ProgNodes.contains_name s (ProgNodes.sfx name k) = false := ⟨k0, hk0⟩
    have hmin : ∀ j < Nat.find hex,
        ProgNodes.contains_name s (ProgNodes.sfx name j) = true := by
      intro j hj
      have hne := Nat.find_min hex hj
      cases hb : ProgNodes.contains_name s (ProgNodes.sfx name j) with
      | false => exact absurd hb hne
      | true => rfl
    refine ⟨Nat.find hex, Nat.find_spec hex, hmin, ?_⟩
    have hlt : Nat.find hex < 0 + ((ProgNodes.all_names s).length + 1) := by
      have := Nat.find_min' hex hk0
      omega
    have hloop : ProgNodes.fresh_loop s name ((ProgNodes.all_names s).length + 1) 0 =
        ProgNodes.sfx name (Nat.find hex) :=
      ProgNodes.fresh_loop_finds_least s name ((ProgNodes.all_names s).length + 1) 0
        (Nat.find hex) (Nat.zero_le _) hlt (Nat.find_spec hex)
        (fun j _ hj2 => hmin j hj2)
    simp [ProgNodes.get_fresh_name, h, hloop]

/-- Witness for C3 at the literal `1.12345678901` (eleven fractional digits). -/
theorem C3_witness :
    Lark.py_split "1.12345678901" '.' = ["1", "12345678901"] ∧
    10 < ("12345678901" : String).length ∧
    Lark.float "1.12345678901" = Except.error "invalid.decimal.literal" :=
  ⟨by decide, by decide,
    C3_decimal_literal.2 "1.12345678901" "1" "12345678901" (by decide) (by decide)⟩

/-- Witness for C6: combining against `[byte[<=7], byte[<=10], bool]` picks `byte[<=10]`. -/
theorem C6_witness :
    ∃ m, Annotator.longest_array (.array VyperTypes.VYPER_BYTE 5 false)
        [.array VyperTypes.VYPER_BYTE 7 false, .array VyperTypes.VYPER_BYTE 10 false,
          VyperTypes.VYPER_BOOL] = Except.ok m ∧
      m ∈ Annotator.matching_arrays (.array VyperTypes.VYPER_BYTE 5 false)
        [.array VyperTypes.VYPER_BYTE 7 false, .array VyperTypes.VYPER_BYTE 10 false,
          VyperTypes.VYPER_BOOL] ∧
      (∀ t ∈ Annotator.matching_arrays (.array VyperTypes.VYPER_BYTE 5 false)
        [.array VyperTypes.VYPER_BYTE 7 false, .array VyperTypes.VYPER_BYTE 10 false,
          VyperTypes.VYPER_BOOL], VyperTypes.arr_size t ≤ VyperTypes.arr_size m) ∧
      Annotator.intersect_one (.array VyperTypes.VYPER_BYTE 5 false)
        [.array VyperTypes.VYPER_BYTE 7 false, .array VyperTypes.VYPER_BYTE 10 false,
          VyperTypes.VYPER_BOOL] = Except.ok [m] :=
  (C6_combine_widest_array.1 (.array VyperTypes.VYPER_BYTE 5 false)
    [.array VyperTypes.VYPER_BYTE 7 false, .array VyperTypes.VYPER_BYTE 10 false,
      VyperTypes.VYPER_BOOL] (by decide)).2 (by decide)

/-- Witness for C2: with `no_overflows` enabled, the `uint256` under/overflow check still
emits the plain underflow revert and nothing else. -/
theorem C2_witness :
    (Arith.ArithmeticTranslator.mk false).no_reverts = false ∧
    VyperTypes.is_unsigned VyperTypes.VYPER_UINT256 = true ∧
    (Arith.Context.mk "revert" ["no_overflows"]).has_option Arith.CONFIG_NO_OVERFLOWS = true ∧
    Arith.check_under_overflow (Arith.ArithmeticTranslator.mk false) (.Var "x")
      VyperTypes.VYPER_UINT256 [] (Arith.Context.mk "revert" ["no_overflows"]) =
      [Arith.Stmt.If (Arith.Expr.LtCmp (.Var "x")
        (Arith.Expr.IntLit (Arith.type_lower VyperTypes.VYPER_UINT256)))
        [Arith.Stmt.Goto "revert"] []] := by
  refine ⟨rfl, by decide, by decide, ?_⟩
  have h := (C2_unsigned_underflow_plain_revert (Arith.ArithmeticTranslator.mk false)
    (.Var "x") VyperTypes.VYPER_UINT256 [] (Arith.Context.mk "revert" ["no_overflows"])
    rfl).2.2.2.1 (by decide) (by decide)
  simpa using h

/-- Witness for C7: a `uint256` division guarded under a configuration with `no_overflows`
enabled still begins with the divisor-zero revert guard. -/
theorem C7_witness :
    ∃ rest, (Arith.arithmetic_op (Arith.ArithmeticTranslator.mk false) (.Var "x")
      Arith.ArithmeticOperator.div (.Var "y") VyperTypes.VYPER_UINT256 []
      (Arith.Context.mk "revert" ["no_overflows"])).2 =
      [] ++ Arith.Stmt.If (Arith.Expr.EqCmp (.Var "y") (Arith.Expr.IntLit 0))
        [Arith.Stmt.Goto (Arith.Context.mk "revert" ["no_overflows"]).revert_label] [] :: rest :=
  C7_division_by_zero_guard (Arith.ArithmeticTranslator.mk false) (.Var "x") (.Var "y")
    Arith.ArithmeticOperator.div VyperTypes.VYPER_UINT256 []
    (Arith.Context.mk "revert" ["no_overflows"]) rfl (Or.inl rfl)

/-- Witness for C8: an invariant `forall` whose body is the name `msg` is rejected with
`invariant.msg`. -/
theorem C8_witness :
    (([] : List String).contains Checker.FORALL) = false ∧
    ([Checker.VNode.name "i"].all Checker.is_name) = true ∧
    Checker.visit (fun _ => []) none
      (.funCall Checker.FORALL [.dictNode [.name "i"] [.name "uint256"], .name Checker.MSG] [])
      Checker.Ctx.invariant = Except.error "invariant.msg" :=
  ⟨by decide, by decide,
    C8_quantifier_body_context.2.2 (fun _ => []) none [.name "i"] [.name "uint256"]
      (by decide) (by decide)⟩

/-- Witness for C9 at a scope already holding `foo`. -/
theorem C9_witness :
    ProgNodes.contains_name (.root ["foo"]) "foo" = true ∧
    ∃ k, ProgNodes.contains_name (.root ["foo"]) (ProgNodes.sfx "foo" k) = false ∧
      (∀ j < k, ProgNodes.contains_name (.root ["foo"]) (ProgNodes.sfx "foo" j) = true) ∧
      ProgNodes.get_fresh_name (.root ["foo"]) "foo" =
        (ProgNodes.sfx "foo" k, ProgNodes.add_name (.root ["foo"]) (ProgNodes.sfx "foo" k)) :=
  ⟨by decide, (C9_get_fresh_name.1 (.root ["foo"]) "foo").2 (by decide)⟩
